import Mathlib

/-!
Shallow embedding of `examples/filters/rate_limit_filter_pipeline.py`
(the rate-limit filter pipeline of `crcresearch/openwebui-pipelines`).

Modelling choices, each tied to the source:
* Timestamps (`time.time()` floats) are modelled as integers `Int`; the code
  only subtracts and compares instants and multiplies the configured minutes
  by 60, so any linearly ordered ring is adequate, and `Int` keeps every
  construction kernel-computable.
* The several `time.time()` calls inside one `rate_limited` invocation are
  modelled as a single instant `now`, as the spec's claims all fix one
  evaluation instant.
* `datetime.now().weekday()` is modelled by an extra input `wd : ℕ`
  (0 = Monday .. 6 = Sunday), independent of `now`.
* The per-user dict `self.user_requests` is an insertion-ordered
  association list `St`; `stSet` replaces in place like a Python dict.
* Python exceptions are modelled with `Except String`: every operation
  returns its post-state together with `Except.ok` of its value or
  `Except.error` of the raised message.  `prune_requests` assigns the
  rebuilt list only after the whole comprehension has been evaluated, so
  a `TypeError` raised inside the comprehension leaves the state unchanged.
* A user dict is modelled by its four consulted fields, each `Option`
  (`none` = key absent).  Python truthiness of the dict (`if not user:`)
  is modelled as "at least one of the modelled fields is present".
* Python `str.lower` / `str.strip` are modelled by executable ASCII
  versions `lowerStr` / `stripStr` (the identities and exemption lists the
  claims speak about are ASCII).
-/

/-- Python `str.lower` on one character (ASCII). -/
def lowerChar (c : Char) : Char :=
  if 'A' ≤ c ∧ c ≤ 'Z' then Char.ofNat (c.toNat + 32) else c

/-- Python `str.lower` (ASCII). -/
def lowerStr (s : String) : String := ⟨s.data.map lowerChar⟩

/-- Whitespace for Python `str.strip`. -/
def isSpaceChar (c : Char) : Bool := c = ' ' || c = '\t' || c = '\n' || c = '\r'

/-- Python `str.strip`. -/
def stripStr (s : String) : String :=
  ⟨((s.data.dropWhile isSpaceChar).reverse.dropWhile isSpaceChar).reverse⟩

/-- The per-user request history map: `self.user_requests`. -/
def St : Type := List (String × List Int)

instance : DecidableEq St := by
  unfold St
  infer_instance

/-- Dict lookup: `self.user_requests.get(user_id)` / `user_id in self.user_requests`. -/
def stGet : St → String → Option (List Int)
  | [], _ => none
  | (k, v) :: rest, key => if k = key then some v else stGet rest key

/-- Dict assignment `self.user_requests[user_id] = l`: replaces in place, else appends. -/
def stSet : St → String → List Int → St
  | [], key, val => [(key, val)]
  | (k, v) :: rest, key, val =>
    if k = key then (key, val) :: rest else (k, v) :: stSet rest key val

/-- The stored history of one user (`[]` when the key is absent). -/
def histOf (st : St) (uid : String) : List Int :=
  (stGet st uid).getD []

/-- The `Pipeline.Valves` configuration object, with the pydantic field defaults. -/
structure Valves where
  pipelines : List String := []
  priority : Int := 0
  requests_per_minute : Option Int := none
  requests_per_hour : Option Int := none
  sliding_window_limit : Option Int := none
  sliding_window_minutes : Option Int := none
  exempt_usernames : List String := []
  exempt_emails : List String := []
  exempt_user_ids : List String := []
  weekdays_only : Bool := true
deriving DecidableEq

/-- The identity record handed to `inlet`: the four fields the filter consults,
`none` marking an absent dict key. -/
structure UserRec where
  username : Option String := none
  email : Option String := none
  id : Option String := none
  role : Option String := none
deriving DecidableEq

/-- Message of the `TypeError` raised by `None * 60` in `prune_requests`
when `sliding_window_limit` is set but `sliding_window_minutes` is `None`. -/
def typeErrMsg : String := "TypeError: unsupported operand types for *: NoneType and int"

/-- Message of the `AttributeError` raised by `user.get` when `user` is `None`. -/
def attrErrMsg : String := "AttributeError: NoneType object has no attribute get"

/-- `raise Exception("Rate limit exceeded. Please try again later.")`. -/
def rateLimitMsg : String := "Rate limit exceeded. Please try again later."

/-- The retention predicate of the list comprehension in `prune_requests`
(lines 101-112), evaluated left to right with Python short-circuiting:
`(rpm is not None and now - req < 60) or (rph is not None and now - req < 3600)
 or (swl is not None and now - req < swm * 60)`.
The last conjunct evaluates `sliding_window_minutes * 60`, which raises a
`TypeError` when `sliding_window_minutes` is `None`. -/
def keepReq (v : Valves) (now req : Int) : Except String Bool :=
  if v.requests_per_minute.isSome ∧ now - req < 60 then .ok true
  else if v.requests_per_hour.isSome ∧ now - req < 3600 then .ok true
  else
    match v.sliding_window_limit, v.sliding_window_minutes with
    | none, _ => .ok false
    | some _, none => .error typeErrMsg
    | some _, some m => .ok (decide (now - req < m * 60))

/-- The same retention predicate in the configurations where it cannot raise. -/
def pureKeep (v : Valves) (now req : Int) : Bool :=
  if v.requests_per_minute.isSome ∧ now - req < 60 then true
  else if v.requests_per_hour.isSome ∧ now - req < 3600 then true
  else
    match v.sliding_window_limit, v.sliding_window_minutes with
    | some _, some m => decide (now - req < m * 60)
    | _, _ => false

/-- A Python list comprehension with a possibly-raising predicate: elements are
tested left to right and the first raise aborts the whole comprehension. -/
def filterE (p : Int → Except String Bool) : List Int → Except String (List Int)
  | [] => .ok []
  | t :: ts =>
    match p t with
    | .error e => .error e
    | .ok b =>
      match filterE p ts with
      | .error e => .error e
      | .ok ts2 => .ok (if b then t :: ts2 else ts2)

/-- `Pipeline.prune_requests` (lines 97-112).  The comprehension is fully
evaluated before the dict slot is reassigned, so a raise leaves the state
unchanged. -/
def prune_requests (v : Valves) (st : St) (uid : String) (now : Int) :
    St × Except String Unit :=
  match stGet st uid with
  | none => (st, .ok ())
  | some l =>
    match filterE (keepReq v now) l with
    | .ok l2 => (stSet st uid l2, .ok ())
    | .error e => (st, .error e)

/-- `Pipeline.log_request` (lines 114-119). -/
def log_request (st : St) (uid : String) (now : Int) : St :=
  stSet st uid ((stGet st uid).getD [] ++ [now])

/-- `sum(1 for req in user_reqs if now - req < w)`. -/
def countWithin (now w : Int) (l : List Int) : ℕ :=
  l.countP (fun req => decide (now - req < w))

/-- The threshold checks of `rate_limited` (lines 127-142) on the pruned list:
each configured rule rejects when its count has reached its limit, combined
with Python's early-return `or`. -/
def limitsBreached (v : Valves) (now : Int) (reqs : List Int) : Bool :=
  (match v.requests_per_minute with
   | some n => decide ((countWithin now 60 reqs : Int) ≥ n)
   | none => false)
  || (match v.requests_per_hour with
   | some n => decide ((countWithin now 3600 reqs : Int) ≥ n)
   | none => false)
  || (match v.sliding_window_limit with
   | some n => decide ((reqs.length : Int) ≥ n)
   | none => false)

/-- `Pipeline.rate_limited` (lines 121-142): prune, then test each configured
rule against `user_reqs = self.user_requests.get(user_id, [])`. -/
def rate_limited (v : Valves) (st : St) (uid : String) (now : Int) :
    St × Except String Bool :=
  match prune_requests v st uid now with
  | (st2, .error e) => (st2, .error e)
  | (st2, .ok ()) => (st2, .ok (limitsBreached v now (histOf st2 uid)))

/-- `Pipeline.is_weekday` (lines 144-146): `datetime.now().weekday() < 5`. -/
def is_weekday (wd : ℕ) : Bool := wd < 5

/-- `Pipeline.is_exempt` (lines 148-166).  `if not user: return False` is the
Python truthiness test, modelled as all consulted fields absent; each exemption
list is consulted only when non-empty, exactly as in the source. -/
def is_exempt (v : Valves) (user : Option UserRec) : Bool :=
  match user with
  | none => false
  | some u =>
    if u.username = none ∧ u.email = none ∧ u.id = none ∧ u.role = none then false
    else
      (!v.exempt_usernames.isEmpty
        && v.exempt_usernames.contains (lowerStr (stripStr (u.username.getD ""))))
      || (!v.exempt_emails.isEmpty
        && v.exempt_emails.contains (lowerStr (stripStr (u.email.getD ""))))
      || (!v.exempt_user_ids.isEmpty
        && (match u.id with
            | some i => v.exempt_user_ids.contains (stripStr i)
            | none => false))

/-- `user["id"] if user and "id" in user else "default_user"` (line 174); the
branch is only reached when the role key is present, so the record is truthy. -/
def userKey (u : UserRec) : String := u.id.getD "default_user"

/-- `Pipeline.inlet` (lines 168-181).  `user.get("role", "admin")` raises
`AttributeError` when `user` is `None`; otherwise non-"user" roles, exempt
identities and non-enforced days fall through to `return body` untouched,
and the remaining calls are checked and logged. -/
def inlet {β : Type} (v : Valves) (st : St) (user : Option UserRec) (wd : ℕ)
    (now : Int) (body : β) : St × Except String β :=
  match user with
  | none => (st, .error attrErrMsg)
  | some u =>
    if u.role.getD "admin" = "user" then
      if is_exempt v (some u) then (st, .ok body)
      else if !v.weekdays_only || is_weekday wd then
        match rate_limited v st (userKey u) now with
        | (st2, .error e) => (st2, .error e)
        | (st2, .ok true) => (st2, .error rateLimitMsg)
        | (st2, .ok false) => (log_request st2 (userKey u) now, .ok body)
      else (st, .ok body)
    else (st, .ok body)

/-- The largest lookback any currently-active rule needs: 60s when the
per-minute rule is active, 3600s when the per-hour rule is active, and
`sliding_window_minutes * 60` when both sliding-window parameters are set. -/
def maxLookback (v : Valves) : Int :=
  max (if v.requests_per_minute.isSome then (60 : Int) else 0)
    (max (if v.requests_per_hour.isSome then (3600 : Int) else 0)
      (match v.sliding_window_limit, v.sliding_window_minutes with
       | some _, some m => m * 60
       | _, _ => 0))

/-- The state `prune_requests` leaves behind in the configurations where the
retention predicate cannot raise. -/
def pruneSt (v : Valves) (st : St) (uid : String) (now : Int) : St :=
  match stGet st uid with
  | none => st
  | some l => stSet st uid (l.filter (pureKeep v now))

/-- The count that `rate_limited` compares against `sliding_window_limit`:
`requests_in_window = len(user_reqs)` (line 137) taken over the list left by
`prune_requests` (line 121), propagating any raise from pruning. -/
def requests_in_window (v : Valves) (st : St) (uid : String) (now : Int) :
    Except String ℕ :=
  match prune_requests v st uid now with
  | (st2, .ok ()) => .ok (histOf st2 uid).length
  | (_, .error e) => .error e

deriving instance DecidableEq for Except

/-! ### Helper lemmas about the state map -/

theorem stGet_stSet_self (st : St) (k : String) (val : List Int) :
    stGet (stSet st k val) k = some val := by
  induction st with
  | nil => simp [stSet, stGet]
  | cons p rest ih =>
    obtain ⟨k2, v2⟩ := p
    by_cases h : k2 = k
    · simp [stSet, h, stGet]
    · simp [stSet, h, stGet, ih]

theorem stSet_stSet_self (st : St) (k : String) (a b : List Int) :
    stSet (stSet st k a) k b = stSet st k b := by
  induction st with
  | nil => simp [stSet]
  | cons p rest ih =>
    obtain ⟨k2, v2⟩ := p
    by_cases h : k2 = k
    · simp [stSet, h]
    · simp [stSet, h, ih]

/-! ### Helper lemmas about the comprehension and the retention predicate -/

theorem keepReq_error_msg {v : Valves} {now req : Int} {e : String}
    (h : keepReq v now req = .error e) : e = typeErrMsg := by
  unfold keepReq at h
  split at h
  · exact absurd h (by simp)
  · split at h
    · exact absurd h (by simp)
    · split at h
      · exact absurd h (by simp)
      · simp at h
        exact h.symm
      · exact absurd h (by simp)

theorem keepReq_eq_ok_pure {v : Valves} (now req : Int)
    (hwf : v.sliding_window_limit.isSome → v.sliding_window_minutes.isSome) :
    keepReq v now req = .ok (pureKeep v now req) := by
  unfold keepReq pureKeep
  split
  · rfl
  · split
    · rfl
    · cases hswl : v.sliding_window_limit with
      | none => simp
      | some k =>
        cases hswm : v.sliding_window_minutes with
        | none =>
          simp [hswl, hswm] at hwf
        | some m => simp

theorem keepReq_ok_true_elim {v : Valves} {now req : Int}
    (h : keepReq v now req = .ok true) :
    (v.requests_per_minute.isSome ∧ now - req < 60)
    ∨ (v.requests_per_hour.isSome ∧ now - req < 3600)
    ∨ (∃ m, v.sliding_window_limit.isSome ∧ v.sliding_window_minutes = some m
        ∧ now - req < m * 60) := by
  unfold keepReq at h
  split at h
  · rename_i hc
    exact Or.inl hc
  · split at h
    · rename_i hc
      exact Or.inr (Or.inl hc)
    · split at h
      · exact absurd h (by simp)
      · exact absurd h (by simp)
      · rename_i hl hm
        refine Or.inr (Or.inr ?_)
        rename_i m
        refine ⟨m, by simp [hl], hm, ?_⟩
        simp at h
        exact h

theorem filterE_ok_forall {p : Int → Except String Bool} :
    ∀ {l l2 : List Int}, filterE p l = .ok l2 → ∀ t ∈ l2, p t = .ok true := by
  intro l
  induction l with
  | nil =>
    intro l2 h t ht
    unfold filterE at h
    simp at h
    subst h
    simp at ht
  | cons a as ih =>
    intro l2 h t ht
    unfold filterE at h
    cases hpa : p a with
    | error e => rw [hpa] at h; exact absurd h (by simp)
    | ok b =>
      rw [hpa] at h
      cases hrec : filterE p as with
      | error e => rw [hrec] at h; exact absurd h (by simp)
      | ok ts2 =>
        rw [hrec] at h
        simp at h
        subst h
        cases b with
        | false =>
          simp at ht
          exact ih hrec t ht
        | true =>
          simp at ht
          rcases ht with rfl | ht
          · exact hpa
          · exact ih hrec t ht

theorem filterE_of_forall_true {p : Int → Except String Bool} :
    ∀ {l : List Int}, (∀ t ∈ l, p t = .ok true) → filterE p l = .ok l := by
  intro l
  induction l with
  | nil => intro _; rfl
  | cons a as ih =>
    intro h
    unfold filterE
    rw [h a (by simp), ih (fun t ht => h t (by simp [ht]))]
    simp

theorem filterE_eq_filter (p : Int → Except String Bool) (q : Int → Bool)
    (hpq : ∀ r, p r = .ok (q r)) :
    ∀ l : List Int, filterE p l = .ok (l.filter q) := by
  intro l
  induction l with
  | nil => rfl
  | cons a as ih =>
    unfold filterE
    rw [hpq a, ih]
    cases hq : q a <;> simp [List.filter, hq]

theorem filterE_error_msg {v : Valves} {now : Int} :
    ∀ {l : List Int} {e : String},
      filterE (keepReq v now) l = .error e → e = typeErrMsg := by
  intro l
  induction l with
  | nil =>
    intro e h
    unfold filterE at h
    exact absurd h (by simp)
  | cons a as ih =>
    intro e h
    unfold filterE at h
    cases hpa : keepReq v now a with
    | error e2 =>
      rw [hpa] at h
      simp at h
      subst h
      exact keepReq_error_msg hpa
    | ok b =>
      rw [hpa] at h
      cases hrec : filterE (keepReq v now) as with
      | error e2 =>
        rw [hrec] at h
        simp at h
        subst h
        exact ih hrec
      | ok ts2 => rw [hrec] at h; exact absurd h (by simp)

/-! ### Helper lemmas about pruning -/

theorem prune_requests_eq_pruneSt (v : Valves) (st : St) (uid : String) (now : Int)
    (hwf : v.sliding_window_limit.isSome → v.sliding_window_minutes.isSome) :
    prune_requests v st uid now = (pruneSt v st uid now, .ok ()) := by
  unfold prune_requests pruneSt
  cases hg : stGet st uid with
  | none => rfl
  | some l =>
    dsimp only
    rw [filterE_eq_filter (keepReq v now) (pureKeep v now)
      (fun r => keepReq_eq_ok_pure now r hwf) l]

theorem histOf_pruneSt (v : Valves) (st : St) (uid : String) (now : Int) :
    histOf (pruneSt v st uid now) uid = (histOf st uid).filter (pureKeep v now) := by
  unfold pruneSt histOf
  cases hg : stGet st uid with
  | none => simp [hg]
  | some l => simp [hg, stGet_stSet_self]

theorem countP_filter_of_imp {p q : Int → Bool} {l : List Int}
    (h : ∀ a, p a = true → q a = true) :
    (l.filter q).countP p = l.countP p := by
  rw [List.countP_filter]
  refine List.countP_congr ?_
  intro a _
  constructor
  · intro ha
    simp at ha
    simp [ha.1]
  · intro ha
    simp [ha, h a ha]

theorem pureKeep_true_elim {v : Valves} {now req : Int}
    (h : pureKeep v now req = true) :
    (v.requests_per_minute.isSome ∧ now - req < 60)
    ∨ (v.requests_per_hour.isSome ∧ now - req < 3600)
    ∨ (∃ k m, v.sliding_window_limit = some k ∧ v.sliding_window_minutes = some m
        ∧ now - req < m * 60) := by
  unfold pureKeep at h
  split at h
  · rename_i hc
    exact Or.inl hc
  · split at h
    · rename_i hc
      exact Or.inr (Or.inl hc)
    · split at h
      · rename_i k m hl hm
        refine Or.inr (Or.inr ⟨k, m, hl, hm, ?_⟩)
        simp at h
        exact h
      · exact absurd h (by simp)

theorem pureKeep_of_minute {v : Valves} {now req : Int}
    (hs : v.requests_per_minute.isSome) (hlt : now - req < 60) :
    pureKeep v now req = true := by
  unfold pureKeep
  simp [hs, hlt]

theorem pureKeep_of_hour {v : Valves} {now req : Int}
    (hs : v.requests_per_hour.isSome) (hlt : now - req < 3600) :
    pureKeep v now req = true := by
  unfold pureKeep
  split
  · rfl
  · simp [hs, hlt]

theorem pureKeep_of_sliding {v : Valves} {now req : Int} {k m : Int}
    (hl : v.sliding_window_limit = some k) (hm : v.sliding_window_minutes = some m)
    (hlt : now - req < m * 60) :
    pureKeep v now req = true := by
  unfold pureKeep
  split
  · rfl
  · split
    · rfl
    · simp [hl, hm, hlt]

theorem filterE_ok_sublist {p : Int → Except String Bool} :
    ∀ {l l2 : List Int}, filterE p l = .ok l2 → l2.Sublist l := by
  intro l
  induction l with
  | nil =>
    intro l2 h
    unfold filterE at h
    simp at h
    subst h
    exact List.Sublist.refl []
  | cons a as ih =>
    intro l2 h
    unfold filterE at h
    cases hpa : p a with
    | error e => rw [hpa] at h; exact absurd h (by simp)
    | ok b =>
      rw [hpa] at h
      cases hrec : filterE p as with
      | error e => rw [hrec] at h; exact absurd h (by simp)
      | ok ts2 =>
        rw [hrec] at h
        simp at h
        subst h
        cases b with
        | false => exact List.Sublist.cons a (ih hrec)
        | true => exact List.Sublist.cons₂ a (ih hrec)

theorem prune_error_elim {v : Valves} {st : St} {uid : String} {now : Int}
    {pst : St} {e : String}
    (h : prune_requests v st uid now = (pst, .error e)) :
    pst = st ∧ e = typeErrMsg := by
  unfold prune_requests at h
  cases hg : stGet st uid with
  | none =>
    rw [hg] at h
    exact absurd h (by simp)
  | some l =>
    rw [hg] at h
    dsimp only at h
    cases hf : filterE (keepReq v now) l with
    | ok l2 => rw [hf] at h; exact absurd h (by simp)
    | error e2 =>
      rw [hf] at h
      simp at h
      exact ⟨h.1.symm, h.2 ▸ filterE_error_msg hf⟩

theorem prune_ok_sublist {v : Valves} {st : St} {uid : String} {now : Int}
    {st2 : St} (h : prune_requests v st uid now = (st2, .ok ())) :
    (histOf st2 uid).Sublist (histOf st uid) := by
  unfold prune_requests at h
  cases hg : stGet st uid with
  | none =>
    rw [hg] at h
    simp at h
    subst h
    exact List.Sublist.refl _
  | some l =>
    rw [hg] at h
    dsimp only at h
    cases hf : filterE (keepReq v now) l with
    | error e2 => rw [hf] at h; exact absurd h (by simp)
    | ok l2 =>
      rw [hf] at h
      simp at h
      rw [← h]
      unfold histOf
      rw [stGet_stSet_self, hg]
      exact filterE_ok_sublist hf

theorem rate_limited_of_prune_ok {v : Valves} {st : St} {uid : String} {now : Int}
    {st2 : St} (h : prune_requests v st uid now = (st2, .ok ())) :
    rate_limited v st uid now = (st2, .ok (limitsBreached v now (histOf st2 uid))) := by
  unfold rate_limited
  rw [h]

theorem day_cond_true {v : Valves} {wd : ℕ}
    (hday : v.weekdays_only = false ∨ wd < 5) :
    (!v.weekdays_only || is_weekday wd) = true := by
  rcases hday with h | h
  · simp [h]
  · simp [is_weekday, h]

/-! ### Claim theorems -/

/-- Claim C8: after pruning, every retained timestamp of the pruned identity is
within the maximum lookback required by a currently-active rule (60s, 3600s, or
`sliding_window_minutes * 60`, whichever is largest among the enabled rules),
and is in fact within the window of at least one active rule, so entries older
than all active windows have been removed. -/
theorem C8_prune_within_lookback (v : Valves) (st : St) (uid : String)
    (now : Int) (st2 : St)
    (h : prune_requests v st uid now = (st2, .ok ())) :
    ∀ t ∈ histOf st2 uid, now - t < maxLookback v ∧
      ((v.requests_per_minute.isSome ∧ now - t < 60)
       ∨ (v.requests_per_hour.isSome ∧ now - t < 3600)
       ∨ (∃ m, v.sliding_window_limit.isSome ∧ v.sliding_window_minutes = some m
           ∧ now - t < m * 60)) := by
  intro t ht
  have hkeep : keepReq v now t = .ok true := by
    unfold prune_requests at h
    cases hg : stGet st uid with
    | none =>
      rw [hg] at h
      simp at h
      subst h
      unfold histOf at ht
      rw [hg] at ht
      simp at ht
    | some l =>
      rw [hg] at h
      dsimp only at h
      cases hf : filterE (keepReq v now) l with
      | error e => rw [hf] at h; exact absurd h (by simp)
      | ok l2 =>
        rw [hf] at h
        simp at h
        rw [← h] at ht
        unfold histOf at ht
        rw [stGet_stSet_self] at ht
        exact filterE_ok_forall hf t ht
  have hdisj := keepReq_ok_true_elim hkeep
  rcases hdisj with ⟨hs, hlt⟩ | ⟨hs, hlt⟩ | ⟨m, hsl, hm, hlt⟩
  · have hle : (60 : Int) ≤ maxLookback v := by
      unfold maxLookback
      rw [if_pos hs]
      exact le_max_left _ _
    exact ⟨lt_of_lt_of_le hlt hle, Or.inl ⟨hs, hlt⟩⟩
  · have hle : (3600 : Int) ≤ maxLookback v := by
      unfold maxLookback
      rw [if_pos hs]
      exact le_max_of_le_right (le_max_left _ _)
    exact ⟨lt_of_lt_of_le hlt hle, Or.inr (Or.inl ⟨hs, hlt⟩)⟩
  · obtain ⟨k, hk⟩ := Option.isSome_iff_exists.mp hsl
    have hle : m * 60 ≤ maxLookback v := by
      unfold maxLookback
      rw [hk, hm]
      exact le_max_of_le_right (le_max_of_le_right le_rfl)
    exact ⟨lt_of_lt_of_le hlt hle, Or.inr (Or.inr ⟨m, hsl, hm, hlt⟩)⟩

/-- Witness for C8 at a concrete input. -/
theorem C8_prune_within_lookback_witness :
    200 - (150 : Int) < maxLookback { requests_per_minute := some 5 } ∧
      (((Valves.mk [] 0 (some 5) none none none [] [] [] true).requests_per_minute.isSome
          ∧ 200 - (150 : Int) < 60)
       ∨ ((Valves.mk [] 0 (some 5) none none none [] [] [] true).requests_per_hour.isSome
          ∧ 200 - (150 : Int) < 3600)
       ∨ (∃ m, (Valves.mk [] 0 (some 5) none none none [] [] [] true).sliding_window_limit.isSome
           ∧ (Valves.mk [] 0 (some 5) none none none [] [] [] true).sliding_window_minutes = some m
           ∧ 200 - (150 : Int) < m * 60)) :=
  C8_prune_within_lookback { requests_per_minute := some 5 }
    [("u", [150, 80])] "u" 200 [("u", [150])] (by decide) 150 (by decide)

/-- Claim C9: pruning is idempotent at a fixed instant: pruning an already
pruned state again at the same `now` leaves the state unchanged, and
`rate_limited` (hence every per-rule count) computes the same answer from the
pruned state as from the original state. -/
theorem C9_prune_idempotent (v : Valves) (st : St) (uid : String) (now : Int)
    (st2 : St) (h : prune_requests v st uid now = (st2, .ok ())) :
    prune_requests v st2 uid now = (st2, .ok ())
    ∧ rate_limited v st2 uid now = rate_limited v st uid now := by
  have hfix : prune_requests v st2 uid now = (st2, .ok ()) := by
    unfold prune_requests at h ⊢
    cases hg : stGet st uid with
    | none =>
      rw [hg] at h
      simp at h
      subst h
      rw [hg]
    | some l =>
      rw [hg] at h
      dsimp only at h
      cases hf : filterE (keepReq v now) l with
      | error e => rw [hf] at h; exact absurd h (by simp)
      | ok l2 =>
        rw [hf] at h
        simp at h
        have hg2 : stGet st2 uid = some l2 := by
          rw [← h]
          exact stGet_stSet_self st uid l2
        rw [hg2]
        dsimp only
        rw [filterE_of_forall_true (filterE_ok_forall hf)]
        dsimp only
        rw [← h, stSet_stSet_self]
  refine ⟨hfix, ?_⟩
  rw [rate_limited_of_prune_ok hfix, rate_limited_of_prune_ok h]

/-- Witness for C9 at a concrete input. -/
theorem C9_prune_idempotent_witness :
    prune_requests { requests_per_minute := some 5 } [("u", [150])] "u" 200
      = ([("u", [150])], .ok ())
    ∧ rate_limited { requests_per_minute := some 5 } [("u", [150])] "u" 200
      = rate_limited { requests_per_minute := some 5 } [("u", [150, 80])] "u" 200 :=
  C9_prune_idempotent { requests_per_minute := some 5 }
    [("u", [150, 80])] "u" 200 [("u", [150])] (by decide)

/-- Claim C10 (implicit in the source): any present user record whose role is
absent or differs from "user" bypasses rate limiting entirely: `inlet` returns
the body unchanged, mutates no history, and raises nothing, whatever the
configuration and accumulated state. -/
theorem C10_role_bypass (v : Valves) (st : St) (u : UserRec) (wd : ℕ)
    (now : Int) (β : Type) (body : β) (h : u.role ≠ some "user") :
    inlet v st (some u) wd now body = (st, .ok body) := by
  unfold inlet
  dsimp only
  have hrole : ¬ (u.role.getD "admin" = "user") := by
    cases hr : u.role with
    | none => decide
    | some r =>
      rw [hr] at h
      intro he
      exact h (by rw [show r = "user" from he])
  rw [if_neg hrole]

/-- Witness for C10 at a concrete input. -/
theorem C10_role_bypass_witness :
    inlet { requests_per_minute := some 0, weekdays_only := false }
      [("u9", [1, 2, 3])] (some { id := some "u9", role := some "admin" }) 0 10 "b"
      = ([("u9", [1, 2, 3])], .ok "b") :=
  C10_role_bypass { requests_per_minute := some 0, weekdays_only := false }
    [("u9", [1, 2, 3])] { id := some "u9", role := some "admin" } 0 10 String "b"
    (by decide)

/-- Claim C3 (code bug): `inlet` is supposed never to raise for malformed
identity records, but `user.get("role", "admin")` runs before the
`user and "id" in user` guard, so an absent (`None`) identity record raises
`AttributeError` instead of falling back to the shared "default_user" bucket.
The second conjunct shows the intended fallback does work for a present record
that merely lacks the "id" key: it is counted under "default_user". -/
theorem C3_none_user_raises :
    inlet ({} : Valves) ([] : St) none 0 100 "b" = ([], .error attrErrMsg)
    ∧ inlet { requests_per_minute := some 5, weekdays_only := false }
        ([] : St) (some { role := some "user" }) 6 100 "b"
        = ([("default_user", [100])], .ok "b") :=
  ⟨by decide, by decide⟩

/-- Claim C6 (code bug): with `weekdays_only = true`, every Saturday/Sunday
call with a present user record returns the body unchanged and leaves the
whole history map unmutated, whatever the configuration and accumulated state;
but a weekend call with an absent (`None`) record raises `AttributeError`
(the role lookup runs before the weekday check), so "every call" fails. -/
theorem C6_weekend_bypass :
    (∀ (v : Valves) (st : St) (u : UserRec) (wd : ℕ) (now : Int)
        (β : Type) (body : β),
      v.weekdays_only = true → (wd = 5 ∨ wd = 6) →
      inlet v st (some u) wd now body = (st, .ok body))
    ∧ inlet ({} : Valves) [("default_user", [0])] none 5 100 "b"
        = ([("default_user", [0])], .error attrErrMsg) := by
  refine ⟨?_, by decide⟩
  intro v st u wd now β body hwo hwd
  unfold inlet
  dsimp only
  by_cases hrole : u.role.getD "admin" = "user"
  · rw [if_pos hrole]
    by_cases hex : is_exempt v (some u) = true
    · rw [if_pos hex]
    · rw [if_neg hex]
      have hday : ¬ ((!v.weekdays_only || is_weekday wd) = true) := by
        rw [hwo]
        rcases hwd with h5 | h5 <;> subst h5 <;> decide
      rw [if_neg hday]
  · rw [if_neg hrole]

/-- Witness for the universally quantified part of C6. -/
theorem C6_weekend_bypass_witness :
    inlet { requests_per_minute := some 0 } [("u1", [7, 8, 9])]
      (some { id := some "u1", role := some "user" }) 5 100 "b"
      = ([("u1", [7, 8, 9])], .ok "b") :=
  C6_weekend_bypass.1 { requests_per_minute := some 0 } [("u1", [7, 8, 9])]
    { id := some "u1", role := some "user" } 5 100 String "b" rfl (Or.inl rfl)

/-- Claim C7: an exempt identity — username (stripped, lower-cased) listed in
`exempt_usernames`, or email (stripped, lower-cased) listed in
`exempt_emails`, or id (stripped) listed in `exempt_user_ids` — is always
allowed, past any threshold, and the call never mutates the history map; the
lower-casing makes the username match case-insensitive. -/
theorem C7_exempt_always_allowed (v : Valves) (st : St) (u : UserRec)
    (wd : ℕ) (now : Int) (β : Type) (body : β)
    (h : (∃ s, u.username = some s ∧ lowerStr (stripStr s) ∈ v.exempt_usernames)
       ∨ (∃ s, u.email = some s ∧ lowerStr (stripStr s) ∈ v.exempt_emails)
       ∨ (∃ s, u.id = some s ∧ stripStr s ∈ v.exempt_user_ids)) :
    inlet v st (some u) wd now body = (st, .ok body) := by
  have hex : is_exempt v (some u) = true := by
    unfold is_exempt
    dsimp only
    have hne : ¬ (u.username = none ∧ u.email = none ∧ u.id = none ∧ u.role = none) := by
      rcases h with ⟨s, hs, _⟩ | ⟨s, hs, _⟩ | ⟨s, hs, _⟩ <;> simp [hs]
    rw [if_neg hne]
    rcases h with ⟨s, hs, hmem⟩ | ⟨s, hs, hmem⟩ | ⟨s, hs, hmem⟩
    · have hlist : v.exempt_usernames ≠ [] := List.ne_nil_of_mem hmem
      simp [hlist, hs, hmem]
    · have hlist : v.exempt_emails ≠ [] := List.ne_nil_of_mem hmem
      simp [hlist, hs, hmem]
    · have hlist : v.exempt_user_ids ≠ [] := List.ne_nil_of_mem hmem
      simp [hlist, hs, hmem]
  unfold inlet
  dsimp only
  by_cases hrole : u.role.getD "admin" = "user"
  · rw [if_pos hrole, if_pos hex]
  · rw [if_neg hrole]

/-- Witness for C7: mixed-case "Admin" matches exempt entry "admin" and is
allowed despite a limit of zero and a non-empty history. -/
theorem C7_exempt_always_allowed_witness :
    inlet { requests_per_minute := some 0, weekdays_only := false,
            exempt_usernames := ["admin"] }
      [("u7", [1, 2, 3])]
      (some { username := some "Admin", id := some "u7", role := some "user" })
      0 10 "b"
      = ([("u7", [1, 2, 3])], .ok "b") :=
  C7_exempt_always_allowed
    { requests_per_minute := some 0, weekdays_only := false,
      exempt_usernames := ["admin"] }
    [("u7", [1, 2, 3])]
    { username := some "Admin", id := some "u7", role := some "user" }
    0 10 String "b" (Or.inl ⟨"Admin", rfl, by decide⟩)

/-- Claim C2 (code bug): the inactive-rule behaviour holds in only one
direction.  First conjunct: with `sliding_window_minutes` set but
`sliding_window_limit` absent, `inlet` behaves exactly as if the window
length were absent too (the rule is inactive).  But the converse direction
fails: with `sliding_window_limit = 1` and no window length, pruning a
non-empty history evaluates `None * 60` and raises `TypeError` (second
conjunct), and with `sliding_window_limit = 0` the half-configured rule by
itself rejects the very first request (third conjunct). -/
theorem C2_half_configured_sliding :
    (∀ (v : Valves) (st : St) (user : Option UserRec) (wd : ℕ) (now : Int)
        (β : Type) (body : β),
      v.sliding_window_limit = none →
      inlet v st user wd now body
        = inlet { v with sliding_window_minutes := none } st user wd now body)
    ∧ inlet { sliding_window_limit := some 1 } [("u2", [100])]
        (some { id := some "u2", role := some "user" }) 0 200 "b"
        = ([("u2", [100])], .error typeErrMsg)
    ∧ inlet { sliding_window_limit := some 0 } ([] : St)
        (some { id := some "u2", role := some "user" }) 0 200 "b"
        = ([], .error rateLimitMsg) := by
  refine ⟨?_, by decide, by decide⟩
  intro v st user wd now β body h
  have hk : keepReq v = keepReq { v with sliding_window_minutes := none } := by
    funext now2 req
    unfold keepReq
    simp [h]
  unfold inlet rate_limited prune_requests
  rw [hk]
  rfl

/-- Witness for the universally quantified part of C2. -/
theorem C2_half_configured_sliding_witness :
    inlet { requests_per_minute := some 2, sliding_window_minutes := some 5,
            weekdays_only := false }
      [("u", [100])] (some { id := some "u", role := some "user" }) 0 130 "b"
      = inlet { ({ requests_per_minute := some 2, sliding_window_minutes := some 5,
                   weekdays_only := false } : Valves) with sliding_window_minutes := none }
          [("u", [100])] (some { id := some "u", role := some "user" }) 0 130 "b" :=
  C2_half_configured_sliding.1
    { requests_per_minute := some 2, sliding_window_minutes := some 5,
      weekdays_only := false }
    [("u", [100])] (some { id := some "u", role := some "user" }) 0 130 String "b"
    rfl

/-- Claim C4 (code bug): thresholds are inclusive lower bounds for rejection.
First conjunct: for a non-exempt "user"-role identity on an enforced day,
whenever pruning can complete (i.e. `sliding_window_limit` set implies
`sliding_window_minutes` set), exactly `n` stored requests within an active
rule's window reject the call with the rate-limit error — for each of the
three rules.  But the claim's universal statement fails on half-configured
sliding setups: the second conjunct shows that with `requests_per_minute = 2`,
`sliding_window_limit = 5`, no window length, and exactly 2 requests inside
the active 60s window plus one stale entry, the call raises `TypeError`
during pruning instead of the rejection the claim requires. -/
theorem C4_inclusive_thresholds :
    (∀ (v : Valves) (st : St) (u : UserRec) (wd : ℕ) (now : Int)
        (β : Type) (body : β),
      u.role = some "user" →
      is_exempt v (some u) = false →
      (v.weekdays_only = false ∨ wd < 5) →
      (v.sliding_window_limit.isSome → v.sliding_window_minutes.isSome) →
      (∀ n : Int, v.requests_per_minute = some n →
        (countWithin now 60 (histOf st (userKey u)) : Int) = n →
        (inlet v st (some u) wd now body).2 = .error rateLimitMsg)
      ∧ (∀ n : Int, v.requests_per_hour = some n →
        (countWithin now 3600 (histOf st (userKey u)) : Int) = n →
        (inlet v st (some u) wd now body).2 = .error rateLimitMsg)
      ∧ (∀ n m : Int, v.sliding_window_limit = some n →
        v.sliding_window_minutes = some m →
        (countWithin now (m * 60) (histOf st (userKey u)) : Int) = n →
        (inlet v st (some u) wd now body).2 = .error rateLimitMsg))
    ∧ inlet { requests_per_minute := some 2, sliding_window_limit := some 5 }
        [("u1", [100, 199, 198])] (some { id := some "u1", role := some "user" })
        0 200 "b"
        = ([("u1", [100, 199, 198])], .error typeErrMsg) := by
  refine ⟨?_, by decide⟩
  intro v st u wd now β body hrole hex hday hwf
  have hprune := prune_requests_eq_pruneSt v st (userKey u) now hwf
  have hrl := rate_limited_of_prune_ok hprune
  have hinlet :
      limitsBreached v now (histOf (pruneSt v st (userKey u) now) (userKey u)) = true →
      (inlet v st (some u) wd now body).2 = .error rateLimitMsg := by
    intro hb
    unfold inlet
    dsimp only
    rw [if_pos (show u.role.getD "admin" = "user" by rw [hrole]; rfl)]
    rw [if_neg (show ¬ (is_exempt v (some u) = true) by rw [hex]; simp)]
    rw [if_pos (day_cond_true hday)]
    rw [hrl, hb]
  have hreqs := histOf_pruneSt v st (userKey u) now
  refine ⟨?_, ?_, ?_⟩
  · intro n hn hcnt
    apply hinlet
    have hcnt2 : countWithin now 60 (histOf (pruneSt v st (userKey u) now) (userKey u))
        = countWithin now 60 (histOf st (userKey u)) := by
      rw [hreqs]
      unfold countWithin
      exact countP_filter_of_imp
        (fun a ha => pureKeep_of_minute (by rw [hn]; rfl) (by simpa using ha))
    unfold limitsBreached
    rw [hn, hcnt2, hcnt]
    simp
  · intro n hn hcnt
    apply hinlet
    have hcnt2 : countWithin now 3600 (histOf (pruneSt v st (userKey u) now) (userKey u))
        = countWithin now 3600 (histOf st (userKey u)) := by
      rw [hreqs]
      unfold countWithin
      exact countP_filter_of_imp
        (fun a ha => pureKeep_of_hour (by rw [hn]; rfl) (by simpa using ha))
    unfold limitsBreached
    rw [hn, hcnt2, hcnt]
    simp
  · intro n m hn hm hcnt
    apply hinlet
    have hcnt2 : countWithin now (m * 60) (histOf (pruneSt v st (userKey u) now) (userKey u))
        = countWithin now (m * 60) (histOf st (userKey u)) := by
      rw [hreqs]
      unfold countWithin
      exact countP_filter_of_imp
        (fun a ha => pureKeep_of_sliding hn hm (by simpa using ha))
    have hlen : ((histOf (pruneSt v st (userKey u) now) (userKey u)).length : Int) ≥ n := by
      rw [← hcnt, ← hcnt2]
      have := List.countP_le_length
        (fun req => decide (now - req < m * 60))
        (l := histOf (pruneSt v st (userKey u) now) (userKey u))
      unfold countWithin
      exact_mod_cast this
    unfold limitsBreached
    rw [hn]
    simp [hlen]

/-- Witness for the universally quantified part of C4:
`requests_per_minute = 2`, prior requests at t = 0, 1; the call at t = 2 is
rejected. -/
theorem C4_inclusive_thresholds_witness :
    (inlet { requests_per_minute := some 2, weekdays_only := false }
      [("u1", [0, 1])] (some { id := some "u1", role := some "user" }) 0 2 "b").2
      = .error rateLimitMsg :=
  (C4_inclusive_thresholds.1 { requests_per_minute := some 2, weekdays_only := false }
    [("u1", [0, 1])] { id := some "u1", role := some "user" } 0 2 String "b"
    rfl (by decide) (Or.inl rfl) (by decide)).1 2 rfl (by decide)

/-- Counterexample to claim C5 as stated: a rejected call can change the
stored history length, because `rate_limited` prunes (and writes back) before
deciding.  Here `requests_per_minute = 1` with history `[80, 190]` at
`now = 200`: the entry 80 is pruned away, the call is rejected, and the stored
history shrinks from two entries to one. -/
theorem C5_rejection_mutates_cex :
    inlet { requests_per_minute := some 1, weekdays_only := false }
      [("u1", [80, 190])] (some { id := some "u1", role := some "user" }) 0 200 "b"
      = ([("u1", [190])], .error rateLimitMsg)
    ∧ (histOf [("u1", [(190 : Int)])] "u1").length
      ≠ (histOf [("u1", [(80 : Int), 190])] "u1").length :=
  ⟨by decide, by decide⟩

/-- Claim C5, amended: a rejected call (one that raises the rate-limit error)
never appends `now`; the state it leaves is exactly the post-pruning state, so
the identity's stored history is a sublist of (hence no longer than) its
pre-call history — its length may shrink by pruning but never grows. -/
theorem C5_rejection_prunes_only (v : Valves) (st : St) (u : UserRec)
    (wd : ℕ) (now : Int) (β : Type) (body : β) (st2 : St)
    (h : inlet v st (some u) wd now body = (st2, .error rateLimitMsg)) :
    st2 = (prune_requests v st (userKey u) now).1
    ∧ (histOf st2 (userKey u)).Sublist (histOf st (userKey u))
    ∧ (histOf st2 (userKey u)).length ≤ (histOf st (userKey u)).length := by
  unfold inlet at h
  dsimp only at h
  by_cases hrole : u.role.getD "admin" = "user"
  case neg =>
    rw [if_neg hrole] at h
    exact absurd h (by simp)
  rw [if_pos hrole] at h
  by_cases hex : is_exempt v (some u) = true
  · rw [if_pos hex] at h
    exact absurd h (by simp)
  · rw [if_neg hex] at h
    by_cases hday : (!v.weekdays_only || is_weekday wd) = true
    case neg =>
      rw [if_neg hday] at h
      exact absurd h (by simp)
    rw [if_pos hday] at h
    rcases hpr : prune_requests v st (userKey u) now with ⟨pst, pe⟩
    cases pe with
    | error e =>
      have hrl : rate_limited v st (userKey u) now = (pst, .error e) := by
        unfold rate_limited
        rw [hpr]
      rw [hrl] at h
      dsimp only at h
      simp at h
      obtain ⟨hpst, hmsg⟩ := prune_error_elim hpr
      rw [hmsg] at h
      exact absurd h.2.symm (by decide)
    | ok uu =>
      cases uu
      have hrl := rate_limited_of_prune_ok hpr
      rw [hrl] at h
      cases hb : limitsBreached v now (histOf pst (userKey u)) with
      | false =>
        rw [hb] at h
        dsimp only at h
        exact absurd h (by simp)
      | true =>
        rw [hb] at h
        dsimp only at h
        simp at h
        have hsub := prune_ok_sublist hpr
        rw [← h]
        exact ⟨by simp [hpr], hsub, hsub.length_le⟩

/-- Witness for C5 (amended) at a concrete rejected call. -/
theorem C5_rejection_prunes_only_witness :
    [("u1", [(190 : Int)])]
      = (prune_requests { requests_per_minute := some 1, weekdays_only := false }
          [("u1", [80, 190])] (userKey { id := some "u1", role := some "user" }) 200).1
    ∧ (histOf [("u1", [(190 : Int)])]
        (userKey { id := some "u1", role := some "user" })).Sublist
        (histOf [("u1", [(80 : Int), 190])] (userKey { id := some "u1", role := some "user" }))
    ∧ (histOf [("u1", [(190 : Int)])] (userKey { id := some "u1", role := some "user" })).length
      ≤ (histOf [("u1", [(80 : Int), 190])] (userKey { id := some "u1", role := some "user" })).length :=
  C5_rejection_prunes_only { requests_per_minute := some 1, weekdays_only := false }
    [("u1", [80, 190])] { id := some "u1", role := some "user" } 0 200 String "b"
    [("u1", [190])] (by decide)

/-- Counterexample to claim C1 as stated: with the per-hour rule active
(`requests_per_hour = 1000`) and a sliding window of 1 minute
(`sliding_window_limit = 1`, `sliding_window_minutes = 1`), a timestamp 120s
old is retained by the hour window and counted by `requests_in_window`
(which is 1), although the number of recorded timestamps within
`sliding_window_minutes * 60 = 60` seconds is 0. -/
theorem C1_sliding_count_cex :
    requests_in_window
      { requests_per_hour := some 1000, sliding_window_limit := some 1,
        sliding_window_minutes := some 1 }
      [("u", [80])] "u" 200
      ≠ .ok (countWithin 200 (1 * 60) (histOf [("u", [(80 : Int)])] "u")) := by
  decide

/-- Claim C1, amended: the count compared against `sliding_window_limit` is
the number of ALL entries retained by pruning, which can include entries older
than `sliding_window_minutes * 60` that a longer active rule's window keeps
alive; it equals the number of timestamps within the sliding window exactly
when no other active rule has a longer window. -/
theorem C1_sliding_count_amended (v : Valves) (st : St) (uid : String)
    (now : Int) (n m : Int)
    (hl : v.sliding_window_limit = some n)
    (hm : v.sliding_window_minutes = some m)
    (hminute : v.requests_per_minute.isSome → (60 : Int) ≤ m * 60)
    (hhour : v.requests_per_hour.isSome → (3600 : Int) ≤ m * 60) :
    requests_in_window v st uid now
      = .ok (countWithin now (m * 60) (histOf st uid)) := by
  have hwf : v.sliding_window_limit.isSome → v.sliding_window_minutes.isSome := by
    simp [hm]
  unfold requests_in_window
  rw [prune_requests_eq_pruneSt v st uid now hwf]
  dsimp only
  rw [histOf_pruneSt]
  congr 1
  rw [← List.countP_eq_length_filter]
  unfold countWithin
  refine List.countP_congr ?_
  intro a _
  constructor
  · intro hk
    rcases pureKeep_true_elim hk with ⟨hs, hlt⟩ | ⟨hs, hlt⟩ | ⟨k, m2, hk2, hm2, hlt⟩
    · simp
      exact lt_of_lt_of_le hlt (hminute hs)
    · simp
      exact lt_of_lt_of_le hlt (hhour hs)
    · rw [hm] at hm2
      injection hm2 with hm2
      subst hm2
      simp [hlt]
  · intro hw
    simp at hw
    exact pureKeep_of_sliding hl hm hw

/-- Witness for C1 (amended) at a concrete input. -/
theorem C1_sliding_count_amended_witness :
    requests_in_window
      { requests_per_hour := some 1000, sliding_window_limit := some 3,
        sliding_window_minutes := some 60 }
      [("u", [100])] "u" 200
      = .ok (countWithin 200 (60 * 60) (histOf [("u", [(100 : Int)])] "u")) :=
  C1_sliding_count_amended
    { requests_per_hour := some 1000, sliding_window_limit := some 3,
      sliding_window_minutes := some 60 }
    [("u", [100])] "u" 200 3 60 rfl rfl (by decide) (by decide)
